import Mathlib

/-!
Shallow embedding of the OMDb fetcher core (src/utils/api.ts and
src/utils/template.ts): a typed client for the OMDb web API and a
placeholder template engine, together with proofs of the specified
properties.
-/

namespace OmdbFetcher

/-- JSON-like runtime values, as produced by the transport's body parser. -/
inductive Json where
  | null : Json
  | bool (b : Bool) : Json
  | str (s : String) : Json
  | num (n : Int) : Json
  | arr (items : List Json) : Json
  | obj (fields : List (String × Json)) : Json

/-- Property lookup on an object's field list (first match wins). -/
def lookupField : List (String × Json) → String → Option Json
  | [], _ => none
  | (k, v) :: rest, key => if k = key then some v else lookupField rest key

/-- Property access `body[key]`: defined only on objects, `undefined`
(modelled as `none`) otherwise. -/
def Json.getField : Json → String → Option Json
  | .obj fields, key => lookupField fields key
  | _, _ => none

/-- Mirrors the JavaScript test `typeof body === 'object' && body !== null`
(arrays are objects in JavaScript). -/
def Json.isObjLike : Json → Bool
  | .obj _ => true
  | .arr _ => true
  | _ => false

/-- Mirrors the JavaScript test `body == null`. -/
def Json.isNull : Json → Bool
  | .null => true
  | _ => false

/-- Whether field `key` is present with string value `s` (mirrors
`obj[key] === s` for a string literal `s`). -/
def fieldEqStr (body : Json) (key s : String) : Bool :=
  match body.getField key with
  | some (.str t) => t = s
  | _ => false

/-- Whether field `key` is present with a string value (mirrors
`typeof obj[key] === 'string'`). -/
def fieldIsStr (body : Json) (key : String) : Bool :=
  match body.getField key with
  | some (.str _) => true
  | _ => false

/-- Whether field `key` is present with an array value (mirrors
`Array.isArray(obj[key])`). -/
def fieldIsArr (body : Json) (key : String) : Bool :=
  match body.getField key with
  | some (.arr _) => true
  | _ => false

/-- The error taxonomy of the client: network, http, api, parse. -/
inductive OmdbErrorKind where
  | network
  | http
  | api
  | parse
  deriving DecidableEq

/-- The single error value type raised by the client, mirroring the
`OmdbError` class: a kind, a message, and the kind-specific optional
fields `httpStatus` and `apiMessage`. -/
structure OmdbError where
  kind : OmdbErrorKind
  message : String
  httpStatus : Option Nat
  apiMessage : Option String
  deriving DecidableEq

/-- Mirrors the `OmdbError` constructor (kind, message, options). -/
def OmdbError.make (kind : OmdbErrorKind) (message : String)
    (httpStatus : Option Nat) (apiMessage : Option String) : OmdbError :=
  ⟨kind, message, httpStatus, apiMessage⟩

/-- A scalar query-parameter value (`string | number` in the source). -/
inductive Scalar where
  | str (s : String)
  | num (n : Int)

/-- Coercion of a scalar to its string form, mirroring `String(value)`. -/
def Scalar.toStringForm : Scalar → String
  | .str s => s
  | .num n => toString n

/-- Mirrors `URLSearchParams.set`: replace the value of an existing key in
place (removing later duplicates), else append the pair at the end. -/
def searchParamsSet : List (String × String) → String → String → List (String × String)
  | [], key, value => [(key, value)]
  | (k, v) :: rest, key, value =>
    if k = key then (key, value) :: rest.filter (fun p => p.1 != key)
    else (k, v) :: searchParamsSet rest key value

/-- Mirrors `buildUrl`: mandatory `apikey` and `r=json` come first, then
each operation parameter is set only when its value is defined, coerced to
its string form. The result models the URL's query-parameter list. -/
def buildUrl (apiKey : String) (params : List (String × Option Scalar)) :
    List (String × String) :=
  let base := searchParamsSet (searchParamsSet [] "apikey" apiKey) "r" "json"
  params.foldl
    (fun acc kv =>
      match kv.2 with
      | none => acc
      | some value => searchParamsSet acc kv.1 value.toStringForm)
    base

/-- The transport's HTTP response shape: a status code and the pre-parsed
JSON body (`Json.null` models an absent/unparseable body). -/
structure HttpResponse where
  status : Nat
  json : Json

/-- Outcome of one call to the injected HTTP-transport capability
(`requestUrl`): a response, or a thrown `Error`, or a thrown non-`Error`
value. -/
inductive TransportResult where
  | ok (response : HttpResponse)
  | threwError (message : String)
  | threwOther

/-- The injected HTTP-transport capability: maps the built URL's query
parameters to a transport outcome. -/
def Transport := List (String × String) → TransportResult

/-- Mirrors `executeRequest`: catch transport exceptions as kind network,
classify status >= 400 as kind http, reject a null body as kind parse,
else hand back the parsed body. -/
def executeRequest (tr : TransportResult) : Except OmdbError Json :=
  match tr with
  | .threwError msg => .error (OmdbError.make .network msg none none)
  | .threwOther => .error (OmdbError.make .network "Network error" none none)
  | .ok response =>
    if response.status ≥ 400 then
      .error (OmdbError.make .http ("OMDb returned HTTP " ++ toString response.status)
        (some response.status) none)
    else if response.json.isNull then
      .error (OmdbError.make .parse "OMDb response was not valid JSON" none none)
    else
      .ok response.json

/-- Mirrors the `isApiError` type guard. -/
def isApiError (body : Json) : Bool :=
  if !body.isObjLike then false
  else fieldEqStr body "Response" "False" && fieldIsStr body "Error"

/-- Mirrors the `isDetailResult` type guard. -/
def isDetailResult (body : Json) : Bool :=
  if !body.isObjLike then false
  else fieldEqStr body "Response" "True" && fieldIsStr body "imdbID"

/-- Mirrors the `isSearchResult` type guard. -/
def isSearchResult (body : Json) : Bool :=
  if !body.isObjLike then false
  else fieldEqStr body "Response" "True" && fieldIsArr body "Search"

/-- Reads `body.Error` after the `isApiError` guard has passed (the guard
guarantees the field is a string; the default is never reached then). -/
def errorField (body : Json) : String :=
  match body.getField "Error" with
  | some (.str s) => s
  | _ => ""

/-- Media type filter (`'movie' | 'series' | 'episode'`). -/
inductive OmdbMediaType where
  | movie
  | series
  | episode

/-- String form of a media type value. -/
def OmdbMediaType.toStr : OmdbMediaType → String
  | .movie => "movie"
  | .series => "series"
  | .episode => "episode"

/-- Plot length filter (`'short' | 'full'`). -/
inductive OmdbPlotLength where
  | short
  | full

/-- String form of a plot length value. -/
def OmdbPlotLength.toStr : OmdbPlotLength → String
  | .short => "short"
  | .full => "full"

/-- Options for `fetchByTitle` (media type, plot length, year). -/
structure OmdbFetchByTitleOptions where
  type : Option OmdbMediaType
  plot : Option OmdbPlotLength
  year : Option Int

/-- Options for `fetchById` (media type, plot length). -/
structure OmdbCommonOptions where
  type : Option OmdbMediaType
  plot : Option OmdbPlotLength

/-- Options for `searchByTitle` (media type, plot length, page). -/
structure OmdbSearchOptions where
  type : Option OmdbMediaType
  plot : Option OmdbPlotLength
  page : Option Int

/-- Mirrors `fetchByTitle`: build the URL from `t`, `y`, `type`, `plot`;
execute the request; classify the body (api-failure shape first, then the
detail success shape, else a parse error). -/
def fetchByTitle (transport : Transport) (apiKey : String) (title : String)
    (options : OmdbFetchByTitleOptions) : Except OmdbError Json :=
  let url := buildUrl apiKey
    [("t", some (Scalar.str title)),
     ("y", options.year.map Scalar.num),
     ("type", options.type.map (fun v => Scalar.str v.toStr)),
     ("plot", options.plot.map (fun v => Scalar.str v.toStr))]
  match executeRequest (transport url) with
  | .error e => .error e
  | .ok body =>
    if isApiError body then
      .error (OmdbError.make .api (errorField body) none (some (errorField body)))
    else if isDetailResult body then
      .ok body
    else
      .error (OmdbError.make .parse "Unexpected response shape from OMDb" none none)

/-- Mirrors `fetchById`: same pipeline as `fetchByTitle`, keyed by `i`. -/
def fetchById (transport : Transport) (apiKey : String) (imdbId : String)
    (options : OmdbCommonOptions) : Except OmdbError Json :=
  let url := buildUrl apiKey
    [("i", some (Scalar.str imdbId)),
     ("type", options.type.map (fun v => Scalar.str v.toStr)),
     ("plot", options.plot.map (fun v => Scalar.str v.toStr))]
  match executeRequest (transport url) with
  | .error e => .error e
  | .ok body =>
    if isApiError body then
      .error (OmdbError.make .api (errorField body) none (some (errorField body)))
    else if isDetailResult body then
      .ok body
    else
      .error (OmdbError.make .parse "Unexpected response shape from OMDb" none none)

/-- Mirrors `searchByTitle`: same pipeline, keyed by `s` with an optional
page, validated against the search success shape. -/
def searchByTitle (transport : Transport) (apiKey : String) (query : String)
    (options : OmdbSearchOptions) : Except OmdbError Json :=
  let url := buildUrl apiKey
    [("s", some (Scalar.str query)),
     ("type", options.type.map (fun v => Scalar.str v.toStr)),
     ("plot", options.plot.map (fun v => Scalar.str v.toStr)),
     ("page", options.page.map Scalar.num)]
  match executeRequest (transport url) with
  | .error e => .error e
  | .ok body =>
    if isApiError body then
      .error (OmdbError.make .api (errorField body) none (some (errorField body)))
    else if isSearchResult body then
      .ok body
    else
      .error (OmdbError.make .parse "Unexpected response shape from OMDb" none none)

/-- The opening brace character of the placeholder delimiters. -/
def lbrace : Char := Char.ofNat 123

/-- The closing brace character of the placeholder delimiters. -/
def rbrace : Char := Char.ofNat 125

/-- Word characters, as matched by the regex class backslash-w
(ASCII letters, digits, underscore). -/
def isWordChar (c : Char) : Bool := c.isAlpha || c.isDigit || c == '_'

/-- Keys in the fixed exclusion set of the template engine
(`EXCLUDED_KEYS` in the source). -/
def EXCLUDED_KEYS : List String := ["Response"]

/-- Attempts a placeholder match after the two opening delimiter
characters: a maximal nonempty run of word characters followed by the two
closing delimiter characters. Returns the identifier and the remaining
text. Greedy matching is exact here: the run cannot stop early, because
the character after a shorter run would be a word character, not the
closing delimiter. -/
def matchAfterOpen (rest : List Char) : Option (String × List Char) :=
  match rest.takeWhile isWordChar, rest.dropWhile isWordChar with
  | [], _ => none
  | key, c :: d :: tail =>
    if c == '=' && d == rbrace then some (String.mk key, tail) else none
  | _, _ => none

/-- Finds a placeholder match starting exactly at the head of the text,
mirroring the regex: opening brace, equals sign, identifier of word
characters, equals sign, closing brace. -/
def matchPlaceholder : List Char → Option (String × List Char)
  | a :: b :: rest =>
    if a == lbrace && b == '=' then matchAfterOpen rest else none
  | _ => none

/-- The full matched placeholder text for an identifier, delimiters
included (what the callback returns to leave the match unchanged). -/
def placeholderText (key : String) : String :=
  String.mk (lbrace :: '=' :: (key.data ++ ['=', rbrace]))

/-- Mirrors the replacement callback's decision for one matched
identifier: `none` means leave the placeholder unchanged and do not
count it (excluded key, key not a property of the data, or a value that
is neither string nor number); `some s` means replace the whole
placeholder with `s` and count it. -/
def templateSubst (data : Json) (key : String) : Option String :=
  if EXCLUDED_KEYS.contains key then none
  else
    match data.getField key with
    | some (Json.str s) => some s
    | some (Json.num n) => some (toString n)
    | _ => none

/-- Fuel-indexed scan-and-replace loop of `applyTemplate`, mirroring
`String.prototype.replace` with a global regex: find the leftmost match,
apply the callback, continue after the match; characters outside matches
pass through. Any fuel above the text length gives the loop's true
result (the fuel-exhausted branch is unreachable then). -/
def applyTemplateFuel (data : Json) : Nat → List Char → String × Nat
  | 0, cs => (String.mk cs, 0)
  | Nat.succ fuel, cs =>
    match cs with
    | [] => ("", 0)
    | c :: rest =>
      match matchPlaceholder (c :: rest) with
      | some (key, tail) =>
        let next := applyTemplateFuel data fuel tail
        match templateSubst data key with
        | some value => (value ++ next.1, next.2 + 1)
        | none => (placeholderText key ++ next.1, next.2)
      | none =>
        let next := applyTemplateFuel data fuel rest
        (String.mk [c] ++ next.1, next.2)

/-- Result of the template engine: the substituted text and the number of
replacements performed. -/
structure ApplyTemplateResult where
  content : String
  replaced : Nat
  deriving DecidableEq

/-- Mirrors `applyTemplate`: replace every placeholder occurrence per the
callback, counting successful substitutions. The data record is the raw
parsed JSON object returned by the client. -/
def applyTemplate (content : String) (data : Json) : ApplyTemplateResult :=
  let r := applyTemplateFuel data (content.data.length + 1) content.data
  ⟨r.1, r.2⟩

/-- Rebuilding a string from its character list is the identity. -/
theorem string_mk_data (s : String) : String.mk s.data = s := rfl

/-- String append is append of the character lists. -/
theorem string_mk_append (a b : List Char) :
    String.mk a ++ String.mk b = String.mk (a ++ b) := rfl

/-- The equals sign is not a word character. -/
theorem isWordChar_eq_sign : isWordChar '=' = false := by decide

/-- Splitting a run of word characters followed by an equals sign:
`takeWhile` keeps exactly the run and `dropWhile` keeps the rest. -/
theorem takeWhile_word_append (l xs : List Char)
    (hw : ∀ c ∈ l, isWordChar c = true) :
    (l ++ '=' :: xs).takeWhile isWordChar = l ∧
      (l ++ '=' :: xs).dropWhile isWordChar = '=' :: xs := by
  induction l with
  | nil => constructor <;> simp [List.takeWhile_cons, List.dropWhile_cons, isWordChar_eq_sign]
  | cons a l ih =>
    have ha : isWordChar a = true := hw a (by simp)
    have ih' := ih (fun c hc => hw c (by simp [hc]))
    constructor <;>
      simp [List.takeWhile_cons, List.dropWhile_cons, ha, ih'.1, ih'.2]

/-- A successful placeholder match at the head of the text decomposes the
text as the full placeholder (delimiters included) followed by the
remainder, with a nonempty identifier of word characters. -/
theorem matchPlaceholder_decomp {cs : List Char} {key : String} {tail : List Char}
    (h : matchPlaceholder cs = some (key, tail)) :
    cs = (placeholderText key).data ++ tail ∧ key.data ≠ [] ∧
      ∀ c ∈ key.data, isWordChar c = true := by
  match cs with
  | [] => simp [matchPlaceholder] at h
  | [a] => simp [matchPlaceholder] at h
  | a :: b :: rest =>
    rw [matchPlaceholder] at h
    by_cases hab : (a == lbrace && b == '=') = true
    · rw [if_pos hab] at h
      obtain ⟨ha, hb⟩ : a = lbrace ∧ b = '=' := by simpa using hab
      have hsplit := List.takeWhile_append_dropWhile (p := isWordChar) (l := rest)
      unfold matchAfterOpen at h
      split at h
      · exact absurd h (by simp)
      · rename_i k c d tl heq1 heq2
        by_cases hcd : (c == '=' && d == rbrace) = true
        · rw [if_pos hcd] at h
          obtain ⟨hc, hd⟩ : c = '=' ∧ d = rbrace := by simpa using hcd
          rw [Option.some.injEq, Prod.mk.injEq] at h
          obtain ⟨hkey, htl⟩ := h
          have hkdata : key.data = rest.takeWhile isWordChar := by
            rw [← hkey]
          have hrest : rest = rest.takeWhile isWordChar ++ '=' :: rbrace :: tail := by
            conv_lhs => rw [← hsplit]
            rw [heq1, hc, hd, htl]
          refine ⟨?_, ?_, ?_⟩
          · rw [ha, hb]
            conv_lhs => rw [hrest]
            simp [placeholderText, hkdata]
          · rw [hkdata]
            intro hemp
            exact heq2 hemp
          · intro ch hch
            rw [hkdata] at hch
            exact List.mem_takeWhile_imp hch
        · rw [if_neg hcd] at h
          exact absurd h (by simp)
      · exact absurd h (by simp)
    · rw [if_neg hab] at h
      exact absurd h (by simp)

/-- A successful placeholder match consumes at least five characters. -/
theorem matchPlaceholder_length {cs : List Char} {key : String} {tail : List Char}
    (h : matchPlaceholder cs = some (key, tail)) : tail.length + 5 ≤ cs.length := by
  obtain ⟨hdecomp, hne, _⟩ := matchPlaceholder_decomp h
  have hk : 1 ≤ key.data.length := by
    cases hkd : key.data with
    | nil => exact absurd hkd hne
    | cons _ _ => simp
  have hl : (placeholderText key).data.length = key.data.length + 4 := by
    simp [placeholderText]
  rw [hdecomp, List.length_append, hl]
  omega

/-- A full placeholder at the head of the text matches, yielding exactly
its identifier and the remainder. -/
theorem matchPlaceholder_ph (key : String) (rest : List Char)
    (hne : key.data ≠ []) (hw : ∀ c ∈ key.data, isWordChar c = true) :
    matchPlaceholder ((placeholderText key).data ++ rest) = some (key, rest) := by
  have hsp := takeWhile_word_append key.data (rbrace :: rest) hw
  have hshape : (placeholderText key).data ++ rest =
      lbrace :: '=' :: (key.data ++ '=' :: rbrace :: rest) := by
    simp [placeholderText]
  rw [hshape, matchPlaceholder, if_pos (by simp)]
  unfold matchAfterOpen
  rw [hsp.1, hsp.2]
  obtain ⟨k0, ks, hk⟩ := List.exists_cons_of_ne_nil hne
  rw [hk]
  have : String.mk (k0 :: ks) = key := by rw [← hk]
  simp [this]

/-- Any two fuel values above the text length give the same result of the
scan-and-replace loop: the fuel is an artifact of the embedding, not of
the algorithm. -/
theorem applyTemplateFuel_congr (data : Json) :
    ∀ f1 f2 : Nat, ∀ cs : List Char, cs.length < f1 → cs.length < f2 →
      applyTemplateFuel data f1 cs = applyTemplateFuel data f2 cs := by
  intro f1
  induction f1 with
  | zero => intro f2 cs h1 _; exact absurd h1 (Nat.not_lt_zero _)
  | succ f1 ih =>
    intro f2 cs h1 h2
    match f2 with
    | 0 => exact absurd h2 (Nat.not_lt_zero _)
    | Nat.succ f2 =>
      cases cs with
      | nil => simp [applyTemplateFuel]
      | cons c rest =>
        rw [applyTemplateFuel, applyTemplateFuel]
        cases hm : matchPlaceholder (c :: rest) with
        | some kt =>
          obtain ⟨key, tail⟩ := kt
          have hlen := matchPlaceholder_length hm
          have hrec := ih f2 tail
            (by simp at h1; simp at hlen; omega)
            (by simp at h2; simp at hlen; omega)
          simp only [hm, hrec]
        | none =>
          have hrec := ih f2 rest
            (by simp at h1; omega) (by simp at h2; omega)
          simp only [hm, hrec]

/-- Unfolds `applyTemplate` at a placeholder standing at the head of the
text: the callback decides replacement or preservation, the counter
moves accordingly, and the scan continues after the placeholder. -/
theorem applyTemplate_placeholder_step (data : Json) (key : String) (rest : String)
    (hne : key.data ≠ []) (hw : ∀ c ∈ key.data, isWordChar c = true) :
    applyTemplate (placeholderText key ++ rest) data =
      match templateSubst data key with
      | some value =>
          ⟨value ++ (applyTemplate rest data).content,
            (applyTemplate rest data).replaced + 1⟩
      | none =>
          ⟨placeholderText key ++ (applyTemplate rest data).content,
            (applyTemplate rest data).replaced⟩ := by
  have hdata : (placeholderText key ++ rest).data =
      (placeholderText key).data ++ rest.data := rfl
  have hm := matchPlaceholder_ph key rest.data hne hw
  have hlen : (placeholderText key).data.length = key.data.length + 4 := by
    simp [placeholderText]
  have hk1 : 1 ≤ key.data.length := by
    cases hkd : key.data with
    | nil => exact absurd hkd hne
    | cons _ _ => simp
  rw [applyTemplate]
  rw [hdata]
  have hcons : (placeholderText key).data ++ rest.data =
      lbrace :: ('=' :: (key.data ++ ['=', rbrace] ++ rest.data)) := by
    simp [placeholderText]
  have htot : ((placeholderText key).data ++ rest.data).length =
      key.data.length + 4 + rest.data.length := by
    rw [List.length_append, hlen]
  rw [htot, hcons]
  rw [applyTemplateFuel]
  have hm' : matchPlaceholder (lbrace :: '=' :: (key.data ++ ['=', rbrace] ++ rest.data)) =
      some (key, rest.data) := by
    rw [← hcons]
    exact hm
  have hcongr := applyTemplateFuel_congr data (key.data.length + 4 + rest.data.length)
    (rest.data.length + 1) rest.data (by omega) (by omega)
  simp only [hm', hcongr]
  cases templateSubst data key <;> rfl

/-- Unfolds `applyTemplate` at a head character that starts no
placeholder: the character passes through unchanged and the scan
continues on the remaining text. -/
theorem applyTemplate_cons_step (data : Json) (c : Char) (rest : String)
    (hm : matchPlaceholder (c :: rest.data) = none) :
    applyTemplate (String.mk (c :: rest.data)) data =
      ⟨String.mk [c] ++ (applyTemplate rest data).content,
        (applyTemplate rest data).replaced⟩ := by
  rw [applyTemplate]
  have hd : (String.mk (c :: rest.data)).data = c :: rest.data := rfl
  rw [hd]
  have hl : (c :: rest.data).length = rest.data.length + 1 := by simp
  rw [hl, applyTemplateFuel, hm]
  rw [applyTemplate]

/-- When the scan performs no replacement, it reproduces its input text
verbatim: every match is either absent or preserved unchanged. -/
theorem applyTemplateFuel_replaced_zero (data : Json) :
    ∀ fuel : Nat, ∀ cs : List Char, cs.length < fuel →
      (applyTemplateFuel data fuel cs).2 = 0 →
      (applyTemplateFuel data fuel cs).1 = String.mk cs := by
  intro fuel
  induction fuel with
  | zero => intro cs h1 _; exact absurd h1 (Nat.not_lt_zero _)
  | succ fuel ih =>
    intro cs h1 h2
    cases cs with
    | nil => rfl
    | cons c rest =>
      rw [applyTemplateFuel] at h2 ⊢
      cases hm : matchPlaceholder (c :: rest) with
      | some kt =>
        obtain ⟨key, tail⟩ := kt
        obtain ⟨hdecomp, _, _⟩ := matchPlaceholder_decomp hm
        have hlen := matchPlaceholder_length hm
        have htail : tail.length < fuel := by
          simp at h1; simp at hlen; omega
        rw [hm] at h2
        cases hsub : templateSubst data key with
        | some value =>
          simp only [hsub] at h2
          exact absurd h2 (by simp)
        | none =>
          simp only [hsub] at h2 ⊢
          have hrec := ih tail htail h2
          rw [hrec, hdecomp]
          have hph : placeholderText key = String.mk (placeholderText key).data := rfl
          rw [hph, string_mk_append]
      | none =>
        rw [hm] at h2
        simp only at h2 ⊢
        have hrest : rest.length < fuel := by simp at h1; omega
        have hrec := ih rest hrest h2
        rw [hrec, string_mk_append]
        simp

/-- A run of `applyTemplate` that performs no replacement returns its
input text verbatim. -/
theorem applyTemplate_replaced_zero (s : String) (data : Json)
    (h : (applyTemplate s data).replaced = 0) :
    (applyTemplate s data).content = s := by
  rw [applyTemplate] at h ⊢
  simp only at h ⊢
  have := applyTemplateFuel_replaced_zero data (s.data.length + 1) s.data
    (by omega) h
  rw [this, string_mk_data]

/-- On a response with status below 400 and a non-null body, the request
executor hands back the parsed body. -/
theorem executeRequest_ok (response : HttpResponse)
    (hst : response.status < 400) (hn : response.json.isNull = false) :
    executeRequest (.ok response) = .ok response.json := by
  rw [executeRequest, if_neg (by omega), if_neg (by simp [hn])]

/-- A body passing the api-failure guard is an object, hence not null. -/
theorem isApiError_isNull {body : Json} (h : isApiError body = true) :
    body.isNull = false := by
  cases body <;> simp [isApiError, Json.isObjLike, Json.getField, fieldEqStr, Json.isNull] at h ⊢

/-- An object body carrying the failure discriminator and a string error
field passes the api-failure guard, and its error field reads back
verbatim. -/
theorem isApiError_of_fields {body : Json} {X : String}
    (hr : body.getField "Response" = some (Json.str "False"))
    (he : body.getField "Error" = some (Json.str X)) :
    isApiError body = true ∧ errorField body = X ∧ body.isNull = false := by
  cases body with
  | obj fields =>
    refine ⟨?_, ?_, rfl⟩
    · simp [isApiError, Json.isObjLike, fieldEqStr, fieldIsStr, hr, he]
    · simp [errorField, he]
  | null => simp [Json.getField] at hr
  | bool b => simp [Json.getField] at hr
  | str s => simp [Json.getField] at hr
  | num n => simp [Json.getField] at hr
  | arr l => simp [Json.getField] at hr

/-- C1: for every HTTP response with status at least 400, each of the
three client operations raises a kind-http error carrying the numeric
status, with a message stating the status code, regardless of the body's
shape. -/
theorem http_status_takes_precedence (transport : Transport)
    (apiKey title imdbId query : String)
    (o1 : OmdbFetchByTitleOptions) (o2 : OmdbCommonOptions) (o3 : OmdbSearchOptions)
    (response : HttpResponse)
    (htr : ∀ u, transport u = TransportResult.ok response)
    (hs : 400 ≤ response.status) :
    fetchByTitle transport apiKey title o1 =
      Except.error (OmdbError.make .http
        ("OMDb returned HTTP " ++ toString response.status) (some response.status) none) ∧
    fetchById transport apiKey imdbId o2 =
      Except.error (OmdbError.make .http
        ("OMDb returned HTTP " ++ toString response.status) (some response.status) none) ∧
    searchByTitle transport apiKey query o3 =
      Except.error (OmdbError.make .http
        ("OMDb returned HTTP " ++ toString response.status) (some response.status) none) := by
  have hex : ∀ u, executeRequest (transport u) =
      .error (OmdbError.make .http
        ("OMDb returned HTTP " ++ toString response.status) (some response.status) none) := by
    intro u
    rw [htr u, executeRequest, if_pos hs]
  refine ⟨?_, ?_, ?_⟩
  · simp only [fetchByTitle, hex]
  · simp only [fetchById, hex]
  · simp only [searchByTitle, hex]

/-- Witness for C1 at a concrete 404 response. -/
theorem http_status_takes_precedence_witness :
    fetchByTitle (fun _ => TransportResult.ok ⟨404, Json.null⟩) "key" "Up"
      ⟨none, none, none⟩ =
    Except.error (OmdbError.make .http "OMDb returned HTTP 404" (some 404) none) := by
  have h := (http_status_takes_precedence
    (fun _ => TransportResult.ok ⟨404, Json.null⟩) "key" "Up" "tt1" "q"
    ⟨none, none, none⟩ ⟨none, none⟩ ⟨none, none, none⟩ ⟨404, Json.null⟩
    (fun _ => rfl) (by decide)).1
  exact h

/-- C2: for every response body that is an object with discriminator
field Response equal to "False" and a string-valued Error field X, and
HTTP status below 400, each operation raises a kind-api error whose
message and apiMessage field both equal X verbatim. -/
theorem api_failure_body_classification (transport : Transport)
    (apiKey title imdbId query X : String)
    (o1 : OmdbFetchByTitleOptions) (o2 : OmdbCommonOptions) (o3 : OmdbSearchOptions)
    (response : HttpResponse)
    (htr : ∀ u, transport u = TransportResult.ok response)
    (hst : response.status < 400)
    (hr : response.json.getField "Response" = some (Json.str "False"))
    (he : response.json.getField "Error" = some (Json.str X)) :
    fetchByTitle transport apiKey title o1 =
      Except.error (OmdbError.make .api X none (some X)) ∧
    fetchById transport apiKey imdbId o2 =
      Except.error (OmdbError.make .api X none (some X)) ∧
    searchByTitle transport apiKey query o3 =
      Except.error (OmdbError.make .api X none (some X)) := by
  obtain ⟨hA, hE, hN⟩ := isApiError_of_fields hr he
  have hex : ∀ u, executeRequest (transport u) = .ok response.json := by
    intro u
    rw [htr u]
    exact executeRequest_ok response hst hN
  refine ⟨?_, ?_, ?_⟩
  · simp only [fetchByTitle, hex, hA, if_true, hE]
  · simp only [fetchById, hex, hA, if_true, hE]
  · simp only [searchByTitle, hex, hA, if_true, hE]

/-- Witness for C2 at a concrete failure body. -/
theorem api_failure_body_classification_witness :
    fetchById
      (fun _ => TransportResult.ok
        ⟨200, Json.obj [("Response", Json.str "False"), ("Error", Json.str "Movie not found!")]⟩)
      "key" "tt1" ⟨none, none⟩ =
    Except.error (OmdbError.make .api "Movie not found!" none (some "Movie not found!")) := by
  exact (api_failure_body_classification
    (fun _ => TransportResult.ok
      ⟨200, Json.obj [("Response", Json.str "False"), ("Error", Json.str "Movie not found!")]⟩)
    "key" "Up" "tt1" "q" "Movie not found!"
    ⟨none, none, none⟩ ⟨none, none⟩ ⟨none, none, none⟩
    ⟨200, Json.obj [("Response", Json.str "False"), ("Error", Json.str "Movie not found!")]⟩
    (fun _ => rfl) (by decide) rfl rfl).2.1

/-- C3: the failure-shape check is applied before the success-shape
checks, so any body passing the api-failure guard is classified as a
kind-api error by every operation and is never returned as a success
value, whatever the success guards would say. -/
theorem failure_check_precedes_success_check (transport : Transport)
    (apiKey title imdbId query : String)
    (o1 : OmdbFetchByTitleOptions) (o2 : OmdbCommonOptions) (o3 : OmdbSearchOptions)
    (response : HttpResponse)
    (htr : ∀ u, transport u = TransportResult.ok response)
    (hst : response.status < 400)
    (hA : isApiError response.json = true) :
    fetchByTitle transport apiKey title o1 =
      Except.error (OmdbError.make .api (errorField response.json) none
        (some (errorField response.json))) ∧
    fetchById transport apiKey imdbId o2 =
      Except.error (OmdbError.make .api (errorField response.json) none
        (some (errorField response.json))) ∧
    searchByTitle transport apiKey query o3 =
      Except.error (OmdbError.make .api (errorField response.json) none
        (some (errorField response.json))) := by
  have hN := isApiError_isNull hA
  have hex : ∀ u, executeRequest (transport u) = .ok response.json := by
    intro u
    rw [htr u]
    exact executeRequest_ok response hst hN
  refine ⟨?_, ?_, ?_⟩
  · simp only [fetchByTitle, hex, hA, if_true]
  · simp only [fetchById, hex, hA, if_true]
  · simp only [searchByTitle, hex, hA, if_true]

/-- Witness for C3 at a concrete failure body. -/
theorem failure_check_precedes_success_check_witness :
    searchByTitle
      (fun _ => TransportResult.ok
        ⟨200, Json.obj [("Response", Json.str "False"), ("Error", Json.str "Too many results.")]⟩)
      "key" "q" ⟨none, none, none⟩ =
    Except.error (OmdbError.make .api "Too many results." none (some "Too many results.")) := by
  exact (failure_check_precedes_success_check
    (fun _ => TransportResult.ok
      ⟨200, Json.obj [("Response", Json.str "False"), ("Error", Json.str "Too many results.")]⟩)
    "key" "Up" "tt1" "q"
    ⟨none, none, none⟩ ⟨none, none⟩ ⟨none, none, none⟩
    ⟨200, Json.obj [("Response", Json.str "False"), ("Error", Json.str "Too many results.")]⟩
    (fun _ => rfl) (by decide) (by decide)).2.2

/-- C8: for every transport-level failure raising an `Error` with message
m, each operation raises a kind-network error whose message equals m. -/
theorem network_failure_classification (transport : Transport)
    (apiKey title imdbId query m : String)
    (o1 : OmdbFetchByTitleOptions) (o2 : OmdbCommonOptions) (o3 : OmdbSearchOptions)
    (htr : ∀ u, transport u = TransportResult.threwError m) :
    fetchByTitle transport apiKey title o1 =
      Except.error (OmdbError.make .network m none none) ∧
    fetchById transport apiKey imdbId o2 =
      Except.error (OmdbError.make .network m none none) ∧
    searchByTitle transport apiKey query o3 =
      Except.error (OmdbError.make .network m none none) := by
  have hex : ∀ u, executeRequest (transport u) =
      .error (OmdbError.make .network m none none) := by
    intro u
    rw [htr u, executeRequest]
  refine ⟨?_, ?_, ?_⟩
  · simp only [fetchByTitle, hex]
  · simp only [fetchById, hex]
  · simp only [searchByTitle, hex]

/-- Witness for C8 at a concrete connection error. -/
theorem network_failure_classification_witness :
    fetchByTitle (fun _ => TransportResult.threwError "net::ERR_CONNECTION_REFUSED")
      "key" "Up" ⟨none, none, none⟩ =
    Except.error (OmdbError.make .network "net::ERR_CONNECTION_REFUSED" none none) := by
  exact (network_failure_classification
    (fun _ => TransportResult.threwError "net::ERR_CONNECTION_REFUSED")
    "key" "Up" "tt1" "q" "net::ERR_CONNECTION_REFUSED"
    ⟨none, none, none⟩ ⟨none, none⟩ ⟨none, none, none⟩ (fun _ => rfl)).1

/-- C10: if the transport throws a value that is not an `Error` instance,
each operation raises a kind-network error with the fixed message
"Network error". -/
theorem non_error_throw_classification (transport : Transport)
    (apiKey title imdbId query : String)
    (o1 : OmdbFetchByTitleOptions) (o2 : OmdbCommonOptions) (o3 : OmdbSearchOptions)
    (htr : ∀ u, transport u = TransportResult.threwOther) :
    fetchByTitle transport apiKey title o1 =
      Except.error (OmdbError.make .network "Network error" none none) ∧
    fetchById transport apiKey imdbId o2 =
      Except.error (OmdbError.make .network "Network error" none none) ∧
    searchByTitle transport apiKey query o3 =
      Except.error (OmdbError.make .network "Network error" none none) := by
  have hex : ∀ u, executeRequest (transport u) =
      .error (OmdbError.make .network "Network error" none none) := by
    intro u
    rw [htr u, executeRequest]
  refine ⟨?_, ?_, ?_⟩
  · simp only [fetchByTitle, hex]
  · simp only [fetchById, hex]
  · simp only [searchByTitle, hex]

/-- Witness for C10 at a concrete non-Error throw. -/
theorem non_error_throw_classification_witness :
    fetchById (fun _ => TransportResult.threwOther) "key" "tt1" ⟨none, none⟩ =
    Except.error (OmdbError.make .network "Network error" none none) := by
  exact (non_error_throw_classification (fun _ => TransportResult.threwOther)
    "key" "Up" "tt1" "q"
    ⟨none, none, none⟩ ⟨none, none⟩ ⟨none, none, none⟩ (fun _ => rfl)).2.1

/-- A body passing a string-equality field test yields that field. -/
theorem fieldEqStr_getField {body : Json} {k s : String}
    (h : fieldEqStr body k s = true) : body.getField k = some (Json.str s) := by
  unfold fieldEqStr at h
  cases hf : body.getField k with
  | none => rw [hf] at h; simp at h
  | some v =>
    rw [hf] at h
    cases v <;> simp at h
    rw [h]

/-- A string-equality field test for one value excludes any other. -/
theorem fieldEqStr_unique {body : Json} {k s1 s2 : String}
    (h : fieldEqStr body k s1 = true) (hne : s1 ≠ s2) :
    fieldEqStr body k s2 = false := by
  have hf := fieldEqStr_getField h
  unfold fieldEqStr
  rw [hf]
  simpa using hne

/-- A body with any defined field is an object, hence object-like and not
null. -/
theorem getField_some_shape {body : Json} {k : String} {v : Json}
    (h : body.getField k = some v) :
    body.isObjLike = true ∧ body.isNull = false := by
  cases body <;> simp [Json.getField, Json.isObjLike, Json.isNull] at h ⊢

/-- C7: success-shape validation is operation-specific. A body with the
success discriminator, an array-valued Search field and no string imdbID
field is returned as-is by searchByTitle but rejected by both detail
operations with the fixed parse-kind unexpected-shape error. -/
theorem success_shape_is_operation_specific (transport : Transport)
    (apiKey title imdbId query : String)
    (o1 : OmdbFetchByTitleOptions) (o2 : OmdbCommonOptions) (o3 : OmdbSearchOptions)
    (response : HttpResponse)
    (htr : ∀ u, transport u = TransportResult.ok response)
    (hst : response.status < 400)
    (hresp : fieldEqStr response.json "Response" "True" = true)
    (hsearch : fieldIsArr response.json "Search" = true)
    (hid : fieldIsStr response.json "imdbID" = false) :
    searchByTitle transport apiKey query o3 = Except.ok response.json ∧
    fetchByTitle transport apiKey title o1 =
      Except.error (OmdbError.make .parse "Unexpected response shape from OMDb" none none) ∧
    fetchById transport apiKey imdbId o2 =
      Except.error (OmdbError.make .parse "Unexpected response shape from OMDb" none none) := by
  obtain ⟨hObj, hN⟩ := getField_some_shape (fieldEqStr_getField hresp)
  have hApiF : isApiError response.json = false := by
    have hFalse : fieldEqStr response.json "Response" "False" = false :=
      fieldEqStr_unique hresp (by decide)
    simp [isApiError, hObj, hFalse]
  have hSearchT : isSearchResult response.json = true := by
    simp [isSearchResult, hObj, hresp, hsearch]
  have hDetF : isDetailResult response.json = false := by
    simp [isDetailResult, hid]
  have hex : ∀ u, executeRequest (transport u) = .ok response.json := by
    intro u
    rw [htr u]
    exact executeRequest_ok response hst hN
  refine ⟨?_, ?_, ?_⟩
  · simp [searchByTitle, hex, hApiF, hSearchT]
  · simp [fetchByTitle, hex, hApiF, hDetF]
  · simp [fetchById, hex, hApiF, hDetF]

/-- Witness for C7 at the concrete search-shaped body of the spec. -/
theorem success_shape_is_operation_specific_witness :
    searchByTitle
      (fun _ => TransportResult.ok ⟨200,
        Json.obj [("Response", Json.str "True"),
          ("Search", Json.arr [Json.obj [("Title", Json.str "A"),
            ("Year", Json.str "1990"), ("imdbID", Json.str "tt1"),
            ("Type", Json.str "movie"), ("Poster", Json.str "-")]]),
          ("totalResults", Json.str "1")]⟩)
      "key" "q" ⟨none, none, none⟩ =
    Except.ok
      (Json.obj [("Response", Json.str "True"),
        ("Search", Json.arr [Json.obj [("Title", Json.str "A"),
          ("Year", Json.str "1990"), ("imdbID", Json.str "tt1"),
          ("Type", Json.str "movie"), ("Poster", Json.str "-")]]),
        ("totalResults", Json.str "1")]) := by
  exact (success_shape_is_operation_specific
    (fun _ => TransportResult.ok ⟨200,
      Json.obj [("Response", Json.str "True"),
        ("Search", Json.arr [Json.obj [("Title", Json.str "A"),
          ("Year", Json.str "1990"), ("imdbID", Json.str "tt1"),
          ("Type", Json.str "movie"), ("Poster", Json.str "-")]]),
        ("totalResults", Json.str "1")]⟩)
    "key" "Up" "tt1" "q" ⟨none, none, none⟩ ⟨none, none⟩ ⟨none, none, none⟩
    ⟨200, Json.obj [("Response", Json.str "True"),
      ("Search", Json.arr [Json.obj [("Title", Json.str "A"),
        ("Year", Json.str "1990"), ("imdbID", Json.str "tt1"),
        ("Type", Json.str "movie"), ("Poster", Json.str "-")]]),
      ("totalResults", Json.str "1")]⟩
    (fun _ => rfl) (by decide) (by decide) (by decide) (by decide)).1

/-- The invariant claimed for every client-constructed error value:
exactly one kind is set, the HTTP status is populated only for the http
kind, and the upstream error string only for the api kind. -/
def errorWellFormed (e : OmdbError) : Prop :=
  (e.kind = .network ∨ e.kind = .http ∨ e.kind = .api ∨ e.kind = .parse) ∧
  (e.httpStatus ≠ none → e.kind = .http) ∧
  (e.apiMessage ≠ none → e.kind = .api)

/-- Every error raised by the request executor satisfies the invariant. -/
theorem executeRequest_error_wf {tr : TransportResult} {e : OmdbError}
    (h : executeRequest tr = .error e) : errorWellFormed e := by
  cases tr with
  | threwError m =>
    rw [executeRequest] at h
    obtain rfl := (Except.error.inj h)
    exact ⟨Or.inl rfl, by simp [OmdbError.make], by simp [OmdbError.make]⟩
  | threwOther =>
    rw [executeRequest] at h
    obtain rfl := (Except.error.inj h)
    exact ⟨Or.inl rfl, by simp [OmdbError.make], by simp [OmdbError.make]⟩
  | ok response =>
    rw [executeRequest] at h
    by_cases hs : response.status ≥ 400
    · rw [if_pos hs] at h
      obtain rfl := (Except.error.inj h)
      exact ⟨Or.inr (Or.inl rfl), fun _ => rfl, by simp [OmdbError.make]⟩
    · rw [if_neg hs] at h
      by_cases hn : response.json.isNull = true
      · rw [if_pos hn] at h
        obtain rfl := (Except.error.inj h)
        exact ⟨Or.inr (Or.inr (Or.inr rfl)), by simp [OmdbError.make], by simp [OmdbError.make]⟩
      · rw [if_neg hn] at h
        exact absurd h (by simp)

/-- Every error produced by the shared classification stage (any success
guard) satisfies the invariant. -/
theorem classify_error_wf (r : Except OmdbError Json) (guard : Json → Bool)
    (e : OmdbError)
    (hr : ∀ e', r = .error e' → errorWellFormed e')
    (h : (match r with
          | .error err => Except.error err
          | .ok body =>
            if isApiError body then
              Except.error (OmdbError.make .api (errorField body) none
                (some (errorField body)))
            else if guard body then Except.ok body
            else Except.error
              (OmdbError.make .parse "Unexpected response shape from OMDb" none none))
        = Except.error e) :
    errorWellFormed e := by
  cases r with
  | error err =>
    simp only at h
    obtain rfl := (Except.error.inj h)
    exact hr err rfl
  | ok body =>
    simp only at h
    by_cases hA : isApiError body = true
    · rw [if_pos hA] at h
      obtain rfl := (Except.error.inj h)
      exact ⟨Or.inr (Or.inr (Or.inl rfl)), by simp [OmdbError.make], fun _ => rfl⟩
    · rw [if_neg hA] at h
      by_cases hG : guard body = true
      · rw [if_pos hG] at h
        exact absurd h (by simp)
      · rw [if_neg hG] at h
        obtain rfl := (Except.error.inj h)
        exact ⟨Or.inr (Or.inr (Or.inr rfl)), by simp [OmdbError.make], by simp [OmdbError.make]⟩

/-- C9: every error value any of the three operations raises satisfies
the invariant: one of the four kinds, the HTTP-status field populated
only for the http kind, the upstream-error-string field only for the api
kind. -/
theorem error_values_well_formed (transport : Transport)
    (apiKey title imdbId query : String)
    (o1 : OmdbFetchByTitleOptions) (o2 : OmdbCommonOptions) (o3 : OmdbSearchOptions)
    (e : OmdbError) :
    (fetchByTitle transport apiKey title o1 = .error e → errorWellFormed e) ∧
    (fetchById transport apiKey imdbId o2 = .error e → errorWellFormed e) ∧
    (searchByTitle transport apiKey query o3 = .error e → errorWellFormed e) := by
  refine ⟨fun h => ?_, fun h => ?_, fun h => ?_⟩
  · exact classify_error_wf _ isDetailResult e
      (fun e' he => executeRequest_error_wf he) h
  · exact classify_error_wf _ isDetailResult e
      (fun e' he => executeRequest_error_wf he) h
  · exact classify_error_wf _ isSearchResult e
      (fun e' he => executeRequest_error_wf he) h

/-- Witness for C9 at a concrete network error. -/
theorem error_values_well_formed_witness :
    errorWellFormed (OmdbError.make .network "boom" none none) := by
  exact (error_values_well_formed (fun _ => TransportResult.threwError "boom")
    "key" "Up" "tt1" "q" ⟨none, none, none⟩ ⟨none, none⟩ ⟨none, none, none⟩
    (OmdbError.make .network "boom" none none)).1 rfl

/-- C4: `applyTemplate` processes each placeholder occurrence as
specified. With the placeholder for a word-character identifier at the
head of the text: an excluded identifier, an identifier that is not a
defined property of the data, or one whose value is neither string nor
number leaves the placeholder unchanged and uncounted; a string or
number value replaces the whole placeholder (delimiters included) by the
value's string form and increments the counter; and a head character
starting no placeholder passes through untouched. -/
theorem template_placeholder_processing (key : String) (t : String) (data : Json)
    (hne : key.data ≠ []) (hw : ∀ c ∈ key.data, isWordChar c = true) :
    (EXCLUDED_KEYS.contains key = true →
      applyTemplate (placeholderText key ++ t) data =
        ⟨placeholderText key ++ (applyTemplate t data).content,
          (applyTemplate t data).replaced⟩) ∧
    (data.getField key = none →
      applyTemplate (placeholderText key ++ t) data =
        ⟨placeholderText key ++ (applyTemplate t data).content,
          (applyTemplate t data).replaced⟩) ∧
    (∀ v, data.getField key = some v →
      (∀ s, v ≠ Json.str s) → (∀ n, v ≠ Json.num n) →
      applyTemplate (placeholderText key ++ t) data =
        ⟨placeholderText key ++ (applyTemplate t data).content,
          (applyTemplate t data).replaced⟩) ∧
    (EXCLUDED_KEYS.contains key = false →
      ∀ s, data.getField key = some (Json.str s) →
        applyTemplate (placeholderText key ++ t) data =
          ⟨s ++ (applyTemplate t data).content,
            (applyTemplate t data).replaced + 1⟩) ∧
    (EXCLUDED_KEYS.contains key = false →
      ∀ n, data.getField key = some (Json.num n) →
        applyTemplate (placeholderText key ++ t) data =
          ⟨toString n ++ (applyTemplate t data).content,
            (applyTemplate t data).replaced + 1⟩) ∧
    (∀ c : Char, ∀ r : String, matchPlaceholder (c :: r.data) = none →
      applyTemplate (String.mk (c :: r.data)) data =
        ⟨String.mk [c] ++ (applyTemplate r data).content,
          (applyTemplate r data).replaced⟩) := by
  refine ⟨fun hx => ?_, fun hg => ?_, fun v hg hs hn => ?_,
    fun hx s hg => ?_, fun hx n hg => ?_, fun c r hm => ?_⟩
  · have hmem : key ∈ EXCLUDED_KEYS := by simpa using hx
    have hsub : templateSubst data key = none := by
      simp [templateSubst, hmem]
    rw [applyTemplate_placeholder_step data key t hne hw, hsub]
  · have hsub : templateSubst data key = none := by
      simp [templateSubst, hg]
    rw [applyTemplate_placeholder_step data key t hne hw, hsub]
  · have hsub : templateSubst data key = none := by
      cases v with
      | str s1 => exact absurd rfl (hs s1)
      | num n1 => exact absurd rfl (hn n1)
      | null => simp [templateSubst, hg]
      | bool b => simp [templateSubst, hg]
      | arr l => simp [templateSubst, hg]
      | obj f => simp [templateSubst, hg]
    rw [applyTemplate_placeholder_step data key t hne hw, hsub]
  · have hnmem : key ∉ EXCLUDED_KEYS := by simpa using hx
    have hsub : templateSubst data key = some s := by
      simp [templateSubst, hnmem, hg]
    rw [applyTemplate_placeholder_step data key t hne hw, hsub]
  · have hnmem : key ∉ EXCLUDED_KEYS := by simpa using hx
    have hsub : templateSubst data key = some (toString n) := by
      simp [templateSubst, hnmem, hg]
    rw [applyTemplate_placeholder_step data key t hne hw, hsub]
  · exact applyTemplate_cons_step data c r hm

/-- Witness for C4: a substitutable identifier is replaced and counted. -/
theorem template_placeholder_processing_witness :
    applyTemplate (placeholderText "Title" ++ "")
      (Json.obj [("Response", Json.str "True"),
        ("Title", Json.str "Good Will Hunting")]) =
    ⟨"Good Will Hunting" ++
        (applyTemplate ""
          (Json.obj [("Response", Json.str "True"),
            ("Title", Json.str "Good Will Hunting")])).content,
      (applyTemplate ""
        (Json.obj [("Response", Json.str "True"),
          ("Title", Json.str "Good Will Hunting")])).replaced + 1⟩ := by
  exact (template_placeholder_processing "Title" ""
    (Json.obj [("Response", Json.str "True"),
      ("Title", Json.str "Good Will Hunting")])
    (by decide) (by decide)).2.2.2.1 (by decide) "Good Will Hunting" rfl

/-- Counterexample to C6 as stated: when a substituted value itself
contains placeholder syntax, a second application changes the text
again. -/
theorem template_second_application_counterexample :
    (applyTemplate
        (applyTemplate (placeholderText "Title")
          (Json.obj [("Response", Json.str "True"), ("imdbID", Json.str "tt1"),
            ("Title", Json.str (placeholderText "Year")),
            ("Year", Json.str "1997")])).content
        (Json.obj [("Response", Json.str "True"), ("imdbID", Json.str "tt1"),
          ("Title", Json.str (placeholderText "Year")),
          ("Year", Json.str "1997")])).content ≠
      (applyTemplate (placeholderText "Title")
        (Json.obj [("Response", Json.str "True"), ("imdbID", Json.str "tt1"),
          ("Title", Json.str (placeholderText "Year")),
          ("Year", Json.str "1997")])).content := by
  decide

/-- C6 (amended): a second application with the same data returns the
first output verbatim whenever it performs no replacement; replacements
can recur only when substituted text reintroduces the placeholder
syntax. -/
theorem template_second_application (t : String) (data : Json)
    (h : (applyTemplate (applyTemplate t data).content data).replaced = 0) :
    (applyTemplate (applyTemplate t data).content data).content =
      (applyTemplate t data).content :=
  applyTemplate_replaced_zero _ data h

/-- Witness for the amended C6 at a concrete text and data record. -/
theorem template_second_application_witness :
    (applyTemplate
        (applyTemplate (placeholderText "Title")
          (Json.obj [("Response", Json.str "True"),
            ("Title", Json.str "Good Will Hunting")])).content
        (Json.obj [("Response", Json.str "True"),
          ("Title", Json.str "Good Will Hunting")])).content =
      (applyTemplate (placeholderText "Title")
        (Json.obj [("Response", Json.str "True"),
          ("Title", Json.str "Good Will Hunting")])).content := by
  exact template_second_application (placeholderText "Title")
    (Json.obj [("Response", Json.str "True"),
      ("Title", Json.str "Good Will Hunting")]) (by decide)

/-- Setting a key not yet present in the query parameters appends the
pair at the end. -/
theorem searchParamsSet_append (qs : List (String × String)) (k v : String)
    (h : ∀ p ∈ qs, p.1 ≠ k) : searchParamsSet qs k v = qs ++ [(k, v)] := by
  induction qs with
  | nil => rfl
  | cons p rest ih =>
    obtain ⟨a, b⟩ := p
    have ha : a ≠ k := h (a, b) (List.mem_cons_self _ _)
    rw [searchParamsSet, if_neg ha,
      ih (fun q hq => h q (List.mem_cons_of_mem _ hq))]
    rfl

/-- The parameter fold of `buildUrl` appends, in order, exactly the
defined parameters in string form, when the accumulator's keys are
disjoint from the parameters' keys and the parameter keys are distinct. -/
theorem buildUrl_fold_append :
    ∀ (params : List (String × Option Scalar)) (acc : List (String × String)),
      (∀ p ∈ acc, ∀ kv ∈ params, p.1 ≠ kv.1) →
      (params.map Prod.fst).Nodup →
      params.foldl
        (fun a kv =>
          match kv.2 with
          | none => a
          | some value => searchParamsSet a kv.1 value.toStringForm)
        acc =
      acc ++ params.filterMap (fun kv => kv.2.map (fun v => (kv.1, v.toStringForm))) := by
  intro params
  induction params with
  | nil => intro acc _ _; simp
  | cons kv rest ih =>
    intro acc hdisj hnodup
    obtain ⟨k, val⟩ := kv
    have hnodup' : k ∉ rest.map Prod.fst ∧ (rest.map Prod.fst).Nodup := by
      rw [List.map_cons] at hnodup
      exact List.nodup_cons.mp hnodup
    cases val with
    | none =>
      rw [List.foldl_cons]
      simp only
      rw [ih acc
        (fun p hp kv' hkv' => hdisj p hp kv' (List.mem_cons_of_mem _ hkv'))
        hnodup'.2]
      simp [List.filterMap_cons]
    | some v =>
      rw [List.foldl_cons]
      simp only
      have hset : searchParamsSet acc k v.toStringForm = acc ++ [(k, v.toStringForm)] :=
        searchParamsSet_append acc k v.toStringForm
          (fun p hp => hdisj p hp (k, some v) (List.mem_cons_self _ _))
      rw [hset, ih]
      · simp [List.filterMap_cons]
      · intro p hp kv' hkv'
        rcases List.mem_append.mp hp with hacc | hsingle
        · exact hdisj p hacc kv' (List.mem_cons_of_mem _ hkv')
        · have hpk : p = (k, v.toStringForm) := by simpa using hsingle
          subst hpk
          intro hcontra
          have hk : k = kv'.1 := hcontra
          exact hnodup'.1 (by
            rw [hk]
            exact List.mem_map_of_mem Prod.fst hkv')
      · exact hnodup'.2

/-- C5: for every parameter map with distinct keys avoiding the two fixed
keys, the built query contains the mandatory apikey and the fixed
response-format JSON parameter, omits every key whose value is undefined
entirely, and includes every key with a defined value coerced to its
string form. -/
theorem query_parameter_construction (apiKey : String)
    (params : List (String × Option Scalar))
    (hfresh : ∀ kv ∈ params, kv.1 ≠ "apikey" ∧ kv.1 ≠ "r")
    (hnodup : (params.map Prod.fst).Nodup) :
    buildUrl apiKey params =
      ("apikey", apiKey) :: ("r", "json") ::
        params.filterMap (fun kv => kv.2.map (fun v => (kv.1, v.toStringForm))) ∧
    ("apikey", apiKey) ∈ buildUrl apiKey params ∧
    ("r", "json") ∈ buildUrl apiKey params ∧
    (∀ kv ∈ params, kv.2 = none → ∀ w, (kv.1, w) ∉ buildUrl apiKey params) ∧
    (∀ kv ∈ params, ∀ v, kv.2 = some v →
      (kv.1, v.toStringForm) ∈ buildUrl apiKey params) := by
  have hbase : searchParamsSet (searchParamsSet [] "apikey" apiKey) "r" "json" =
      [("apikey", apiKey), ("r", "json")] := by
    simp [searchParamsSet]
  have heq : buildUrl apiKey params =
      ("apikey", apiKey) :: ("r", "json") ::
        params.filterMap (fun kv => kv.2.map (fun v => (kv.1, v.toStringForm))) := by
    rw [buildUrl]
    simp only [hbase]
    rw [buildUrl_fold_append params [("apikey", apiKey), ("r", "json")]
      (by
        intro p hp kv hkv
        obtain ⟨h1, h2⟩ := hfresh kv hkv
        rcases List.mem_cons.mp hp with hpe | hp2
        · rw [hpe]; exact fun hc => h1 hc.symm
        · have hpe : p = ("r", "json") := by simpa using hp2
          rw [hpe]; exact fun hc => h2 hc.symm)
      hnodup]
    rfl
  refine ⟨heq, ?_, ?_, ?_, ?_⟩
  · rw [heq]; exact List.mem_cons_self _ _
  · rw [heq]; exact List.mem_cons_of_mem _ (List.mem_cons_self _ _)
  · intro kv hkv hnone w hmem
    rw [heq] at hmem
    obtain ⟨h1, h2⟩ := hfresh kv hkv
    rcases List.mem_cons.mp hmem with hc | hmem2
    · exact h1 (congrArg Prod.fst hc)
    rcases List.mem_cons.mp hmem2 with hc | hmem3
    · exact h2 (congrArg Prod.fst hc)
    obtain ⟨kv', hkv', hmap⟩ := List.mem_filterMap.mp hmem3
    cases hval : kv'.2 with
    | none => rw [hval] at hmap; simp at hmap
    | some v' =>
      rw [hval] at hmap
      simp only [Option.map_some'] at hmap
      have hpair := Option.some.inj hmap
      have hfst : kv'.1 = kv.1 := by
        rw [Prod.ext_iff] at hpair
        exact hpair.1
      have hkveq : kv' = kv :=
        List.inj_on_of_nodup_map hnodup hkv' hkv hfst
      rw [hkveq] at hval
      rw [hval] at hnone
      exact Option.noConfusion hnone
  · intro kv hkv v hval
    rw [heq]
    refine List.mem_cons_of_mem _ (List.mem_cons_of_mem _ ?_)
    exact List.mem_filterMap.mpr ⟨kv, hkv, by rw [hval]; rfl⟩

/-- Witness for C5 at a concrete parameter map with one defined and one
undefined value. -/
theorem query_parameter_construction_witness :
    ("apikey", "KEY") ∈ buildUrl "KEY" [("t", some (Scalar.str "Up")), ("y", none)] := by
  exact (query_parameter_construction "KEY"
    [("t", some (Scalar.str "Up")), ("y", none)]
    (by decide) (by decide)).2.1

end OmdbFetcher
